import Mathlib

/-!
Verification of the Sparks speech-playback core (chunker, duration estimator,
TTS playback controller) against its natural-language specification.

The definitions below are a shallow embedding of the JavaScript sources:
`Parser.parseIntoChunks`, `Parser.stripMarkdownFormatting`,
`Parser.estimateChunksDuration` (src/js/app.js) and the chunk-based `TTS`
playback-controller object.  JavaScript numbers are modelled as rationals
(`ℚ`), `Math.floor`/`Math.round` as `Int.floor`-based operations, strings as
`String`/`List Char`, and the mutable singleton as a state record transformed
by pure functions.  Each controller operation additionally returns the ordered
list of primitive effects (`Act`) it performs, so that ordering claims
("cancel before speaking") can be stated about the synchronous action trace.
The per-chunk-type pause durations `CONFIG.TTS_PAUSES` are not fixed by the
sources at hand, so they are a parameter (`Pauses`) of the chunker; no claim
depends on their concrete values.
-/

namespace Sparks

/-- JavaScript `\s` whitespace class (ASCII part), used by `trim`,
`split(/\s+/)` and `replace(/\s+/g, ' ')`. -/
def isJsSpace (c : Char) : Bool :=
  c = ' ' || c = '\t' || c = '\n' || c = '\r' || c = '\x0b' || c = '\x0c'

/-- JavaScript `String.prototype.trim()` on a character list. -/
def jsTrimList (l : List Char) : List Char :=
  ((l.dropWhile isJsSpace).reverse.dropWhile isJsSpace).reverse

/-- JavaScript `String.prototype.trim()`. -/
def jsTrim (s : String) : String := ⟨jsTrimList s.toList⟩

/-- JavaScript `Math.round` on a rational: round half toward positive
infinity (`Math.round(x) = Math.floor(x + 0.5)`). -/
def jsRound (q : ℚ) : ℤ := ⌊q + 1/2⌋

/-- `text.split(/\s+/).filter(w => w).length` — the number of maximal
whitespace-free words of a string (src/js/app.js, `estimateChunksDuration`). -/
def wordCount (text : String) : ℕ :=
  ((text.toList.splitOnP isJsSpace).filter (fun w => w ≠ [])).length

/-- Chunk type tags produced by `Parser.parseIntoChunks`. -/
inductive ChunkType where
  | paragraph | h1 | h2 | h3 | h4 | listItem | blockquote
  deriving DecidableEq, Repr

/-- A speakable chunk: `{ text, type, pauseAfter }` (src/js/app.js). -/
structure Chunk where
  text : String
  type : ChunkType
  pauseAfter : ℚ
  deriving DecidableEq, Repr

instance : Inhabited Chunk := ⟨⟨"", ChunkType.paragraph, 0⟩⟩

/-- The per-chunk-type pause durations `CONFIG.TTS_PAUSES` (milliseconds),
kept abstract: the configuration file in the sources at hand does not fix
their values, and no claim depends on them. -/
structure Pauses where
  paragraph : ℚ
  h1 : ℚ
  h2 : ℚ
  h3 : ℚ
  h4 : ℚ
  listItem : ℚ
  newline : ℚ
  deriving DecidableEq

namespace Parser

/-- Split at the FIRST occurrence of `delim` in `l`: returns the part before
the occurrence and the part after it, or `none` when `delim` does not occur.
This is the building block for the global non-greedy regex replacements of
`stripMarkdownFormatting`. -/
def splitFirst (delim : List Char) : List Char → Option (List Char × List Char)
  | [] => none
  | c :: cs =>
    if (c :: cs).take delim.length = delim then some ([], (c :: cs).drop delim.length)
    else
      match splitFirst delim cs with
      | none => none
      | some (a, b) => some (c :: a, b)

/-- `.replace(/D(.*?)D/g, '$1')` for a literal delimiter `D`: repeatedly drop
the first matched pair of delimiters, keeping the (possibly empty) text
between them.  `fuel` bounds the number of replacements; callers pass the
string length, which suffices since every replacement consumes at least two
delimiter characters. -/
def stripPairs (delim : List Char) : ℕ → List Char → List Char
  | 0, l => l
  | fuel + 1, l =>
    match splitFirst delim l with
    | none => l
    | some (pre, rest) =>
      match splitFirst delim rest with
      | none => l
      | some (mid, post) => pre ++ mid ++ stripPairs delim fuel post

/-- `.replace(/`([^`]+)`/g, '$1')`: drop backtick pairs around non-empty
backtick-free content; an opening backtick immediately followed by another
backtick stays literal and scanning resumes at the second one. -/
def stripInlineCode : ℕ → List Char → List Char
  | 0, l => l
  | fuel + 1, l =>
    match splitFirst ['`'] l with
    | none => l
    | some (pre, rest) =>
      match splitFirst ['`'] rest with
      | none => l
      | some (mid, post) =>
        if mid = [] then pre ++ '`' :: stripInlineCode fuel rest
        else pre ++ mid ++ stripInlineCode fuel post

/-- `.replace(/\[([^\]]+)\]\(([^)]+)\)/g, '$1')`: replace `[text](url)` by
`text`; on a failed match the opening bracket stays literal and scanning
resumes after it. -/
def stripMdLinks : ℕ → List Char → List Char
  | 0, l => l
  | fuel + 1, l =>
    match splitFirst ['['] l with
    | none => l
    | some (pre, rest) =>
      match splitFirst [']'] rest with
      | none => l
      | some (content, rest2) =>
        if content = [] then pre ++ '[' :: stripMdLinks fuel rest
        else
          match rest2 with
          | '(' :: rest3 =>
            (match splitFirst [')'] rest3 with
             | none => pre ++ '[' :: stripMdLinks fuel rest
             | some (url, rest4) =>
               if url = [] then pre ++ '[' :: stripMdLinks fuel rest
               else pre ++ content ++ stripMdLinks fuel rest4)
          | _ => pre ++ '[' :: stripMdLinks fuel rest

/-- `.replace(/\s+/g, ' ')`: collapse every whitespace run to one space. -/
def collapseWs : Bool → List Char → List Char
  | _, [] => []
  | prevSpace, c :: cs =>
    if isJsSpace c then
      if prevSpace then collapseWs true cs else ' ' :: collapseWs true cs
    else c :: collapseWs false cs

/-- `Parser.stripMarkdownFormatting(text)` (src/js/app.js lines 913-929):
strip bold/italic delimiters, inline code backticks and link markup, collapse
whitespace and trim. -/
def stripMarkdownFormatting (text : String) : String :=
  let l0 := text.toList
  let l1 := stripPairs "***".toList l0.length l0
  let l2 := stripPairs "**".toList l1.length l1
  let l3 := stripPairs "*".toList l2.length l2
  let l4 := stripPairs "___".toList l3.length l3
  let l5 := stripPairs "__".toList l4.length l4
  let l6 := stripPairs "_".toList l5.length l5
  let l7 := stripInlineCode l6.length l6
  let l8 := stripMdLinks l7.length l7
  ⟨jsTrimList (collapseWs false l8)⟩

/-- `/^\d+\. /` — one or more digits, a period and a space. -/
def isNumberedItem (t : List Char) : Bool :=
  let ds := t.takeWhile Char.isDigit
  decide (ds ≠ []) && decide ((t.drop ds.length).take 2 = ['.', ' '])

/-- `.replace(/^\d+\. /, '')`. -/
def dropNumberMarker (t : List Char) : List Char :=
  t.drop ((t.takeWhile Char.isDigit).length + 2)

/-- `/^[-*]{3,}$/`: a horizontal-rule line. -/
def isHorizontalRule (t : List Char) : Bool :=
  decide (3 ≤ t.length) && t.all (fun c => c = '-' || c = '*')

/-- The marker-classification if-chain of `parseIntoChunks` for one trimmed
markdown line: chunk type, pause and the line with its marker stripped;
`none` means the line is a horizontal rule and is skipped. -/
def classifyLine (pauses : Pauses) (t : List Char) :
    Option (ChunkType × ℚ × List Char) :=
  if t.take 5 = "#### ".toList then some (ChunkType.h4, pauses.h4, t.drop 5)
  else if t.take 4 = "### ".toList then some (ChunkType.h3, pauses.h3, t.drop 4)
  else if t.take 3 = "## ".toList then some (ChunkType.h2, pauses.h2, t.drop 3)
  else if t.take 2 = "# ".toList then some (ChunkType.h1, pauses.h1, t.drop 2)
  else if t.take 2 = "- ".toList || t.take 2 = "* ".toList || t.take 2 = "+ ".toList then
    some (ChunkType.listItem, pauses.listItem, t.drop 2)
  else if isNumberedItem t then some (ChunkType.listItem, pauses.listItem, dropNumberMarker t)
  else if t.take 2 = "> ".toList then some (ChunkType.blockquote, pauses.paragraph, t.drop 2)
  else if isHorizontalRule t then none
  else some (ChunkType.paragraph, pauses.paragraph, t)

/-- One iteration of the markdown loop of `parseIntoChunks`: skip blank
lines and horizontal rules, classify, strip markdown, and emit the chunk
only when the stripped text is non-blank. -/
def chunkOfMdLine (pauses : Pauses) (line : List Char) : List Chunk :=
  let trimmedLine := jsTrimList line
  if trimmedLine = [] then []
  else
    match classifyLine pauses trimmedLine with
    | none => []
    | some (ty, pauseAfter, rawText) =>
      let text := stripMarkdownFormatting ⟨rawText⟩
      if jsTrim text = "" then [] else [⟨jsTrim text, ty, pauseAfter⟩]

theorem length_dropWhile_le {α : Type} (p : α → Bool) (l : List α) :
    (l.dropWhile p).length ≤ l.length := by
  induction l with
  | nil => simp
  | cons a l ih => rw [List.dropWhile_cons]; split <;> simp <;> omega

/-- `rawContent.split(/\n\n+/)`: split on runs of two or more newlines. -/
def splitParagraphs : List Char → List (List Char)
  | [] => [[]]
  | '\n' :: '\n' :: rest =>
    [] :: splitParagraphs (rest.dropWhile (fun c => c = '\n'))
  | c :: rest =>
    match splitParagraphs rest with
    | [] => [[c]]
    | p :: ps => (c :: p) :: ps
  termination_by l => l.length
  decreasing_by
    · simp only [List.length_cons]
      have := length_dropWhile_le (fun c => c = '\n') rest
      omega
    · simp [List.length_cons]

/-- One iteration of the plain-text loop of `parseIntoChunks`: trim the
paragraph, split it on single newlines, and emit each non-blank line with the
paragraph pause on the last line and the newline pause on interior lines. -/
def chunkOfPlainPara (pauses : Pauses) (para : List Char) : List Chunk :=
  let trimmed := jsTrimList para
  if trimmed = [] then []
  else
    let lines := trimmed.splitOnP (fun c => c = '\n')
    (lines.enum.map (fun il =>
      let line := jsTrimList il.2
      if line = [] then []
      else [(⟨⟨line⟩, ChunkType.paragraph,
              if il.1 = lines.length - 1 then pauses.paragraph else pauses.newline⟩ : Chunk)])).flatten

/-- `Parser.parseIntoChunks(rawContent, fileName)` (src/js/app.js lines
810-906): markdown files are parsed line by line through the marker
classification; other files are split into paragraphs on blank lines and
then into lines. -/
def parseIntoChunks (pauses : Pauses) (rawContent fileName : String) : List Chunk :=
  let ext := ((fileName.toList.splitOnP (fun c => c = '.')).getLastD []).map Char.toLower
  if ext = ['m', 'd'] then
    ((rawContent.toList.splitOnP (fun c => c = '\n')).map (chunkOfMdLine pauses)).flatten
  else
    ((splitParagraphs rawContent.toList).map (chunkOfPlainPara pauses)).flatten

/-- `Parser.estimateChunksDuration(chunks, rate)` (src/js/app.js lines
962-979): `wordsPerMinute = 150 * rate`, `msPerWord = 60000 / wordsPerMinute`;
sum `words * msPerWord + chunk.pauseAfter` over all chunks; return
`Math.max(1, Math.round(totalMs / 1000))`, or `0` for an empty chunk list. -/
def estimateChunksDuration (chunks : List Chunk) (rate : ℚ) : ℤ :=
  if chunks.length = 0 then 0
  else
    let wordsPerMinute : ℚ := 150 * rate
    let msPerWord : ℚ := 60000 / wordsPerMinute
    let totalMs : ℚ :=
      (chunks.map (fun c => (wordCount c.text : ℚ) * msPerWord + c.pauseAfter)).sum
    max 1 (jsRound (totalMs / 1000))

/-- The spec's per-chunk seconds: `wordCount(chunk.text)/(baseWPM * rate) * 60`
seconds of speaking time plus `pauseAfterMs` milliseconds converted to
seconds, with `baseWPM = 150` (spec §4.2). -/
def specChunkSeconds (rate : ℚ) (c : Chunk) : ℚ :=
  (wordCount c.text : ℚ) / (150 * rate) * 60 + c.pauseAfter / 1000

/-- The total duration estimate exactly as the claim words it: the rounded
total, floored to `1` when some chunk has at least one word, and `0`
otherwise. -/
def estimateClaimed (chunks : List Chunk) (rate : ℚ) : ℤ :=
  if chunks.any (fun c => decide (0 < wordCount c.text)) then
    max 1 (jsRound ((chunks.map (specChunkSeconds rate)).sum))
  else 0

/-- The total duration estimate in the spec's terms, amended to what the code
does: `0` for an empty chunk list, and otherwise the rounded total floored
to `1` whether or not any chunk has a word. -/
def estimateAmended (chunks : List Chunk) (rate : ℚ) : ℤ :=
  if chunks = [] then 0
  else max 1 (jsRound ((chunks.map (specChunkSeconds rate)).sum))

end Parser

/-- The playback-controller state: the fields of the `TTS` singleton object
that the claims are about.  `pauseTimeout` holds the pending next-chunk timer
(`setTimeout` target index and delay in milliseconds), `inFlight` the index
of the last utterance submitted to the synthesis engine and not yet
cancelled, and `progressTracking` whether the 1-second tick/checkpoint
intervals are installed. -/
structure TTSState where
  isPlaying : Bool
  isPaused : Bool
  currentPosition : ℚ
  totalDuration : ℚ
  chunks : List Chunk
  currentChunkIndex : ℕ
  rate : ℚ
  voice : Option String
  availableVoices : List String
  savedPosition : ℚ
  savedChunkIndex : ℕ
  pauseTimeout : Option (ℕ × ℚ)
  inFlight : Option ℕ
  progressTracking : Bool
  rawContent : String
  fileName : String
  deriving DecidableEq

/-- The `TTS` object-literal initial state: not playing, not paused, empty
chunk list, rate 1.0, position and duration 0. -/
def initTTS : TTSState where
  isPlaying := false
  isPaused := false
  currentPosition := 0
  totalDuration := 0
  chunks := []
  currentChunkIndex := 0
  rate := 1
  voice := none
  availableVoices := []
  savedPosition := 0
  savedChunkIndex := 0
  pauseTimeout := none
  inFlight := none
  progressTracking := false
  rawContent := ""
  fileName := ""

/-- Primitive synchronous effects a controller operation performs, in
program order: timer clears, engine cancellation, field writes, utterance
submission, tracking-interval control, wake-resource calls, progress
notification, error logging, persistence. -/
inductive Act where
  | clearPauseTimeout
  | cancelSynth
  | setFlags (playing paused : Bool)
  | setPosition (q : ℚ)
  | setIndex (n : ℕ)
  | saveSnapshot
  | stopTracking
  | startTracking
  | releaseWake
  | requestWake
  | submitUtterance (i : ℕ)
  | setTimerAct (i : ℕ) (delayMs : ℚ)
  | notifyAct
  | logError (code : String)
  | setRateAct (r : ℚ)
  | setDurationAct (q : ℚ)
  | setVoiceAct (v : String)
  | persistAct
  deriving DecidableEq

/-- The trace of `if (this.pauseTimeout) { clearTimeout(...); ... = null }`. -/
def clearTimeoutActs (s : TTSState) : List Act :=
  match s.pauseTimeout with
  | some _ => [Act.clearPauseTimeout]
  | none => []

namespace TTS

/-- `TTS.handleEnd()`: reached when the chunk index passes the end of the
sequence — clear both flags, pin the position to the total duration, stop
tracking, release the wake lock, notify. -/
def handleEnd (s : TTSState) : TTSState × List Act :=
  ({ s with isPlaying := false, isPaused := false,
            currentPosition := s.totalDuration, progressTracking := false },
   [Act.setFlags false false, Act.setPosition s.totalDuration,
    Act.stopTracking, Act.releaseWake, Act.notifyAct])

/-- `TTS.startProgressTracking()`: clear then reinstall the 1-second
position tick and the periodic progress-save interval. -/
def startProgressTracking (s : TTSState) : TTSState × List Act :=
  ({ s with progressTracking := true }, [Act.stopTracking, Act.startTracking])

/-- `TTS.speakChunk(index)`: past the end → `handleEnd`; not playing or
paused → no-op (stale re-entry guard); otherwise record the index and
submit the chunk text to the synthesis engine as a new utterance. -/
def speakChunk (s : TTSState) (index : ℕ) : TTSState × List Act :=
  if s.chunks.length ≤ index then handleEnd s
  else if s.isPlaying && !s.isPaused then
    ({ s with currentChunkIndex := index, inFlight := some index },
     [Act.setIndex index, Act.submitUtterance index])
  else (s, [])

/-- `TTS.stopInternal()`: clear any pending next-chunk timer, clear both
flags, stop tracking, cancel the in-flight utterance. -/
def stopInternal (s : TTSState) : TTSState × List Act :=
  ({ s with pauseTimeout := none, isPlaying := false, isPaused := false,
            progressTracking := false, inFlight := none },
   clearTimeoutActs s ++ [Act.setFlags false false, Act.stopTracking, Act.cancelSynth])

/-- `TTS.stop()`: `stopInternal` plus wake-lock release. -/
def stop (s : TTSState) : TTSState × List Act :=
  let st := stopInternal s
  (st.1, st.2 ++ [Act.releaseWake])

/-- `TTS.pause()`: no-op unless playing; clear any pending next-chunk timer,
snapshot position and index, set `Paused`, stop tracking, release the wake
lock, and cancel the in-flight utterance (the cancel is the LAST statement,
after the flag writes). -/
def pause (s : TTSState) : TTSState × List Act :=
  if s.isPlaying then
    ({ s with pauseTimeout := none,
              savedPosition := s.currentPosition, savedChunkIndex := s.currentChunkIndex,
              isPaused := true, isPlaying := false,
              progressTracking := false, inFlight := none },
     clearTimeoutActs s ++
       [Act.saveSnapshot, Act.setFlags false true, Act.stopTracking,
        Act.releaseWake, Act.cancelSynth])
  else (s, [])

/-- `TTS.resume()`: no-op unless paused; restore the snapshot, set
`Playing`, re-acquire the wake lock, restart speaking at the current chunk
and restart tracking. -/
def resume (s : TTSState) : TTSState × List Act :=
  if s.isPaused then
    let s1 := { s with isPaused := false, isPlaying := true,
                       currentChunkIndex := s.savedChunkIndex,
                       currentPosition := s.savedPosition }
    let sp := speakChunk s1 s1.currentChunkIndex
    let tr := startProgressTracking sp.1
    (tr.1, [Act.setFlags true false, Act.setIndex s.savedChunkIndex,
            Act.setPosition s.savedPosition, Act.requestWake] ++ sp.2 ++ tr.2)
  else (s, [])

/-- `TTS.play()`: paused → `resume`; already playing → no-op; otherwise set
`Playing`, request the wake lock, speak the current chunk, start tracking. -/
def play (s : TTSState) : TTSState × List Act :=
  if s.isPaused then resume s
  else if s.isPlaying then (s, [])
  else
    let s1 := { s with isPlaying := true, isPaused := false }
    let sp := speakChunk s1 s1.currentChunkIndex
    let tr := startProgressTracking sp.1
    (tr.1, [Act.setFlags true false, Act.requestWake] ++ sp.2 ++ tr.2)

/-- The clamp `Math.max(0, Math.min(idx, len - 1))` of `seekToPosition`. -/
def clampChunkIndex (idx : ℤ) (len : ℕ) : ℕ :=
  (max 0 (min idx ((len : ℤ) - 1))).toNat

/-- `TTS.seekToPosition(seconds)`: store the position AS GIVEN (no clamp);
when there are chunks and a positive total duration, recompute the chunk
index proportionally (`Math.floor(percent * chunks.length)` clamped into
range), else index 0; notify progress.  Performs no cancellation. -/
def seekToPosition (s : TTSState) (seconds : ℚ) : TTSState × List Act :=
  let idx : ℕ :=
    if 0 < s.chunks.length ∧ 0 < s.totalDuration then
      clampChunkIndex ⌊seconds / s.totalDuration * (s.chunks.length : ℚ)⌋ s.chunks.length
    else 0
  ({ s with currentPosition := seconds, currentChunkIndex := idx },
   [Act.setPosition seconds, Act.setIndex idx, Act.notifyAct])

/-- `TTS.seekToPercent(percent)`: convert to seconds and delegate. -/
def seekToPercent (s : TTSState) (percent : ℚ) : TTSState × List Act :=
  seekToPosition s (percent / 100 * s.totalDuration)

/-- `TTS.skipForward(seconds)`: remember whether playing, `stopInternal`,
clamp the advanced position to the total duration, seek, and if it was
playing restart speaking at the recomputed chunk index. -/
def skipForward (s : TTSState) (seconds : ℚ) : TTSState × List Act :=
  let wasPlaying := s.isPlaying
  let st := stopInternal s
  let newPosition := min (st.1.currentPosition + seconds) st.1.totalDuration
  let sk := seekToPosition st.1 newPosition
  if wasPlaying then
    let s3 := { sk.1 with isPlaying := true }
    let sp := speakChunk s3 s3.currentChunkIndex
    let tr := startProgressTracking sp.1
    (tr.1, st.2 ++ sk.2 ++ [Act.setFlags true false] ++ sp.2 ++ tr.2)
  else (sk.1, st.2 ++ sk.2)

/-- `TTS.skipBackward(seconds)`: like `skipForward` with the moved-back
position clamped to 0. -/
def skipBackward (s : TTSState) (seconds : ℚ) : TTSState × List Act :=
  let wasPlaying := s.isPlaying
  let st := stopInternal s
  let newPosition := max (st.1.currentPosition - seconds) 0
  let sk := seekToPosition st.1 newPosition
  if wasPlaying then
    let s3 := { sk.1 with isPlaying := true }
    let sp := speakChunk s3 s3.currentChunkIndex
    let tr := startProgressTracking sp.1
    (tr.1, st.2 ++ sk.2 ++ [Act.setFlags true false] ++ sp.2 ++ tr.2)
  else (sk.1, st.2 ++ sk.2)

/-- `TTS.setRate(rate)`: store and persist the rate, recompute the total
duration with the estimator at the new rate, and if playing, stop and
restart speaking at the saved index/position with the new rate. -/
def setRate (s : TTSState) (r : ℚ) : TTSState × List Act :=
  let s1 := { s with rate := r,
                     totalDuration := ((Parser.estimateChunksDuration s.chunks r : ℤ) : ℚ) }
  let base := [Act.setRateAct r, Act.persistAct, Act.setDurationAct s1.totalDuration]
  if s1.isPlaying then
    let savedIdx := s1.currentChunkIndex
    let savedPos := s1.currentPosition
    let st := stopInternal s1
    let s2 := { st.1 with currentChunkIndex := savedIdx, currentPosition := savedPos,
                          isPlaying := true }
    let sp := speakChunk s2 s2.currentChunkIndex
    let tr := startProgressTracking sp.1
    (tr.1, base ++ st.2 ++
      [Act.setIndex savedIdx, Act.setPosition savedPos, Act.setFlags true false] ++
      sp.2 ++ tr.2)
  else (s1, base)

/-- `TTS.setVoice(voiceName)`: resolve the name among the current
candidates; when found, store and persist it, and if playing, stop and
restart speaking at the saved index/position with the new voice. -/
def setVoice (s : TTSState) (voiceName : String) : TTSState × List Act :=
  if s.availableVoices.contains voiceName then
    let s1 := { s with voice := some voiceName }
    let base := [Act.setVoiceAct voiceName, Act.persistAct]
    if s1.isPlaying then
      let savedIdx := s1.currentChunkIndex
      let savedPos := s1.currentPosition
      let st := stopInternal s1
      let s2 := { st.1 with currentChunkIndex := savedIdx, currentPosition := savedPos,
                            isPlaying := true }
      let sp := speakChunk s2 s2.currentChunkIndex
      let tr := startProgressTracking sp.1
      (tr.1, base ++ st.2 ++
        [Act.setIndex savedIdx, Act.setPosition savedPos, Act.setFlags true false] ++
        sp.2 ++ tr.2)
    else (s1, base)
  else (s, [])

/-- `CONFIG.TTS_RATES` (src/js/config.js line 31):
`[0.75, 1.0, 1.25, 1.5, 1.75, 2.0]`. -/
def ttsRates : List ℚ := [3/4, 1, 5/4, 3/2, 7/4, 2]

/-- The rate selected by `TTS.cycleRate()`: find the current rate in
`TTS_RATES` within tolerance 0.01 (index 0 when absent, like the
`findIndex === -1` fallback) and advance circularly. -/
def nextCycledRate (rate : ℚ) : ℚ :=
  let currentIndex := (ttsRates.findIdx? (fun x => decide (|x - rate| < 1/100))).getD 0
  ttsRates.getD ((currentIndex + 1) % ttsRates.length) 0

/-- `TTS.cycleRate()`: apply `setRate` to the next rate in the cycle. -/
def cycleRate (s : TTSState) : TTSState × List Act :=
  setRate s (nextCycledRate s.rate)

/-- `TTS.init(rawContent, fileName, callbacks)`: stop, parse the content
into chunks, reset index/position, restore the persisted rate, estimate the
total duration, and reset the voice for fresh selection. -/
def init (s : TTSState) (raw fileNm : String) (pauses : Pauses) (storedRate : ℚ) :
    TTSState × List Act :=
  let st := stop s
  let cs := Parser.parseIntoChunks pauses raw fileNm
  ({ st.1 with rawContent := raw, fileName := fileNm, chunks := cs,
               currentChunkIndex := 0, currentPosition := 0, rate := storedRate,
               totalDuration := ((Parser.estimateChunksDuration cs storedRate : ℤ) : ℚ),
               voice := none },
   st.2 ++ [Act.setIndex 0, Act.setPosition 0, Act.setRateAct storedRate,
            Act.setDurationAct ((Parser.estimateChunksDuration cs storedRate : ℤ) : ℚ)])

/-- The `utterance.onend` handler registered by `speakChunk(index)` over the
chunk at `index`: if still playing and not paused, schedule
`speakChunk(index + 1)` after `chunk.pauseAfter / rate` milliseconds. -/
def utteranceOnEnd (s : TTSState) (index : ℕ) (pauseAfterChunk : ℚ) : TTSState × List Act :=
  if s.isPlaying && !s.isPaused then
    ({ s with pauseTimeout := some (index + 1, pauseAfterChunk / s.rate) },
     [Act.setTimerAct (index + 1) (pauseAfterChunk / s.rate)])
  else (s, [])

/-- The `utterance.onerror` handler registered by `speakChunk(index)`:
errors `interrupted` and `canceled` are ignored; any other error is logged
and, if still playing and not paused, `speakChunk(index + 1)` is scheduled
after a fixed 100 ms fallback delay. -/
def utteranceOnError (s : TTSState) (index : ℕ) (code : String) : TTSState × List Act :=
  if code = "interrupted" || code = "canceled" then (s, [])
  else if s.isPlaying && !s.isPaused then
    ({ s with pauseTimeout := some (index + 1, 100) },
     [Act.logError code, Act.setTimerAct (index + 1) 100])
  else (s, [Act.logError code])

/-- Firing of the pending next-chunk `setTimeout`: consume the timer and run
the scheduled `speakChunk`. -/
def pauseTimeoutFire (s : TTSState) : TTSState × List Act :=
  match s.pauseTimeout with
  | some (j, _) => speakChunk { s with pauseTimeout := none } j
  | none => (s, [])

/-- One firing of the 1-second progress interval: when installed, playing
and not paused, advance the position estimate by one second, clamp it to
the total duration, and notify. -/
def progressTick (s : TTSState) : TTSState × List Act :=
  if s.progressTracking && s.isPlaying && !s.isPaused then
    let p := s.currentPosition + 1
    let p2 := if s.totalDuration ≤ p then s.totalDuration else p
    ({ s with currentPosition := p2 }, [Act.setPosition p2, Act.notifyAct])
  else (s, [])

/-- `TTS.getProgressPercent()`: 0 when the total duration is 0, else the
rounded percentage — the zero check is what makes it total. -/
def getProgressPercent (s : TTSState) : ℤ :=
  if s.totalDuration = 0 then 0
  else jsRound (s.currentPosition / s.totalDuration * 100)

end TTS

/-- The progress event emitted by `TTS.notifyProgress()`. -/
structure ProgressEvent where
  currentPosition : ℚ
  totalDuration : ℚ
  percent : ℤ
  rate : ℚ
  isPlaying : Bool
  isPaused : Bool
  currentChunk : ℕ
  totalChunks : ℕ
  deriving DecidableEq

/-- The payload `TTS.notifyProgress()` passes to the progress callback. -/
def notifyProgressEvent (s : TTSState) : ProgressEvent where
  currentPosition := s.currentPosition
  totalDuration := s.totalDuration
  percent := TTS.getProgressPercent s
  rate := s.rate
  isPlaying := s.isPlaying
  isPaused := s.isPaused
  currentChunk := s.currentChunkIndex
  totalChunks := s.chunks.length

/-- The public operations and asynchronous event firings of the playback
controller, for reachability statements. -/
inductive Op where
  | opInit (raw fileNm : String) (pauses : Pauses) (storedRate : ℚ)
  | opPlay
  | opPause
  | opResume
  | opStop
  | opSkipForward (q : ℚ)
  | opSkipBackward (q : ℚ)
  | opSeekToPosition (q : ℚ)
  | opSeekToPercent (q : ℚ)
  | opSetRate (q : ℚ)
  | opSetVoice (v : String)
  | opCycleRate
  | opUtteranceEnd
  | opUtteranceError (code : String)
  | opTimerFire
  | opTick

/-- The state transition of one operation or event (the in-flight utterance
index selects which chunk's handlers fire). -/
def stepOp (s : TTSState) : Op → TTSState
  | Op.opInit raw fileNm pauses storedRate => (TTS.init s raw fileNm pauses storedRate).1
  | Op.opPlay => (TTS.play s).1
  | Op.opPause => (TTS.pause s).1
  | Op.opResume => (TTS.resume s).1
  | Op.opStop => (TTS.stop s).1
  | Op.opSkipForward q => (TTS.skipForward s q).1
  | Op.opSkipBackward q => (TTS.skipBackward s q).1
  | Op.opSeekToPosition q => (TTS.seekToPosition s q).1
  | Op.opSeekToPercent q => (TTS.seekToPercent s q).1
  | Op.opSetRate q => (TTS.setRate s q).1
  | Op.opSetVoice v => (TTS.setVoice s v).1
  | Op.opCycleRate => (TTS.cycleRate s).1
  | Op.opUtteranceEnd =>
    match s.inFlight with
    | some i => (TTS.utteranceOnEnd s i (s.chunks.getD i default).pauseAfter).1
    | none => s
  | Op.opUtteranceError code =>
    match s.inFlight with
    | some i => (TTS.utteranceOnError s i code).1
    | none => s
  | Op.opTimerFire => (TTS.pauseTimeoutFire s).1
  | Op.opTick => (TTS.progressTick s).1

/-- Run a sequence of operations from a state. -/
def runOps (s : TTSState) (ops : List Op) : TTSState :=
  ops.foldl stepOp s

/-- The mutual-exclusion flag invariant: never playing and paused at once. -/
def flagsInv (s : TTSState) : Prop := ¬(s.isPlaying = true ∧ s.isPaused = true)

/-- `goodTrace seen tr` holds when every utterance submission in the action
trace `tr` is preceded by an engine cancellation (`seen` records whether a
cancellation has already happened). -/
def goodTrace : Bool → List Act → Bool
  | _, [] => true
  | _, Act.cancelSynth :: rest => goodTrace true rest
  | seen, Act.submitUtterance _ :: rest => seen && goodTrace seen rest
  | seen, _ :: rest => goodTrace seen rest

/-- No utterance submission occurs in the trace. -/
def noSubmit (tr : List Act) : Bool :=
  tr.all (fun a => match a with | Act.submitUtterance _ => false | _ => true)

/-- Iterate `cycleRate` on the controller state. -/
def cycleRateIter : ℕ → TTSState → TTSState
  | 0, s => s
  | n + 1, s => cycleRateIter n (TTS.cycleRate s).1

/-- Iterate the cycled-rate choice on a bare rate. -/
def nextCycledRateIter : ℕ → ℚ → ℚ
  | 0, r => r
  | n + 1, r => nextCycledRateIter n (TTS.nextCycledRate r)

/-- A loaded single-chunk player with a 10-second estimated duration, used
to exhibit the missing clamp of `seekToPosition`. -/
def sSeekCex : TTSState :=
  { initTTS with chunks := [⟨"a", ChunkType.paragraph, 0⟩], totalDuration := 10 }

/-- A playing two-chunk player with a pending next-chunk timer and an
in-flight utterance, used to exhibit that seeking cancels neither. -/
def sStale : TTSState :=
  { initTTS with isPlaying := true,
                 chunks := [⟨"a", ChunkType.paragraph, 0⟩, ⟨"b", ChunkType.paragraph, 0⟩],
                 totalDuration := 10, pauseTimeout := some (1, 100), inFlight := some 0 }

/-- A playing five-chunk player, used for the synthesis-error scenario. -/
def sErr5 : TTSState :=
  { initTTS with isPlaying := true,
                 chunks := List.replicate 5 ⟨"a", ChunkType.paragraph, 0⟩,
                 totalDuration := 5 }

/-- A playing player at position 42 of an estimated 60 seconds whose single
five-letter chunk re-estimates to 1 second at rate 2, used to exhibit that
`setRate` does not clamp the position. -/
def sRate42 : TTSState :=
  { initTTS with isPlaying := true, chunks := [⟨"hello", ChunkType.paragraph, 0⟩],
                 currentPosition := 42, totalDuration := 60 }

/-- A player whose rate 3.0 is not among `TTS_RATES`, used to exhibit that
six `cycleRate` applications do not return to such a rate. -/
def sRate3 : TTSState := { initTTS with rate := 3 }

/-! ## Helper lemmas -/

theorem jsRound_mono {a b : ℚ} (h : a ≤ b) : jsRound a ≤ jsRound b :=
  Int.floor_le_floor (by linarith)

theorem sum_div_const (l : List ℚ) (d : ℚ) :
    l.sum / d = (l.map (fun x => x / d)).sum := by
  induction l with
  | nil => simp
  | cons a l ih => simp [List.sum_cons, add_div, ih]

/-! ## C10 — `getProgressPercent` is total -/

/-- C10: `getProgressPercent` never divides by zero: it returns `0` when the
total duration is `0` and the rounding of `(position/total) * 100`
otherwise, and the `percent` field of every emitted progress event is this
well-defined value (in particular for the freshly-constructed player). -/
theorem getProgressPercent_total (s : TTSState) :
    (s.totalDuration = 0 → TTS.getProgressPercent s = 0) ∧
    (s.totalDuration ≠ 0 →
      TTS.getProgressPercent s = jsRound (s.currentPosition / s.totalDuration * 100)) ∧
    (notifyProgressEvent s).percent = TTS.getProgressPercent s ∧
    (notifyProgressEvent initTTS).percent = 0 := by
  refine ⟨fun h => ?_, fun h => ?_, rfl, rfl⟩
  · simp [TTS.getProgressPercent, h]
  · simp [TTS.getProgressPercent, h]

theorem getProgressPercent_total_witness : TTS.getProgressPercent initTTS = 0 :=
  (getProgressPercent_total initTTS).1 rfl

/-! ## C4 — the duration estimator versus the spec formula -/

/-- C4 counterexample: on a one-chunk list whose chunk has no words the
code's estimator yields `1`, while the formula of the claim (floored to `1`
only when some chunk has a word, `0` otherwise) yields `0`. -/
theorem estimateChunksDuration_claim_cex :
    Parser.estimateChunksDuration [⟨"", ChunkType.paragraph, 0⟩] 1 = 1 ∧
    Parser.estimateClaimed [⟨"", ChunkType.paragraph, 0⟩] 1 = 0 := by
  constructor
  · norm_num [Parser.estimateChunksDuration, wordCount, jsRound]
  · decide

/-- C4 amended: for every chunk list and every nonzero rate, the code's
estimate equals the rounding of the summed per-chunk seconds
(`wordCount/(150·rate)·60 + pauseAfter/1000`), floored to `1` whenever the
chunk list is non-empty (not merely when some chunk has a word), and `0`
exactly for the empty list. -/
theorem estimateChunksDuration_eq_amended (chunks : List Chunk) (rate : ℚ)
    (hr : rate ≠ 0) :
    Parser.estimateChunksDuration chunks rate = Parser.estimateAmended chunks rate := by
  rcases eq_or_ne chunks [] with h | h
  · subst h; simp [Parser.estimateChunksDuration, Parser.estimateAmended]
  · have hlen : chunks.length ≠ 0 := by simpa using fun hl => h (List.length_eq_zero.mp hl)
    simp only [Parser.estimateChunksDuration, Parser.estimateAmended, if_neg hlen, if_neg h]
    congr 2
    rw [sum_div_const, List.map_map]
    have hfun : ((fun x => x / 1000) ∘
        fun c => ((wordCount c.text : ℚ)) * (60000 / (150 * rate)) + c.pauseAfter) =
        Parser.specChunkSeconds rate := by
      funext c
      simp only [Function.comp, Parser.specChunkSeconds]
      field_simp
      ring
    rw [hfun]

theorem estimateChunksDuration_eq_amended_witness :
    Parser.estimateChunksDuration [⟨"hi there", ChunkType.h1, 300⟩] 2 =
      Parser.estimateAmended [⟨"hi there", ChunkType.h1, 300⟩] 2 :=
  estimateChunksDuration_eq_amended _ 2 two_ne_zero

/-! ## C5 — monotonicity of the estimate in the rate -/

/-- C5: for a fixed chunk list the estimate is monotonically non-increasing
in the rate, and it is at least `1` whenever some chunk has non-empty
text. -/
theorem estimateChunksDuration_rate_mono (chunks : List Chunk) (r1 r2 : ℚ)
    (h0 : 0 < r1) (h12 : r1 ≤ r2) :
    Parser.estimateChunksDuration chunks r2 ≤ Parser.estimateChunksDuration chunks r1 ∧
    ((∃ c ∈ chunks, c.text ≠ "") → 1 ≤ Parser.estimateChunksDuration chunks r1) := by
  constructor
  · rcases eq_or_ne chunks.length 0 with h | h
    · simp [Parser.estimateChunksDuration, h]
    · simp only [Parser.estimateChunksDuration, if_neg h]
      refine max_le_max le_rfl (jsRound_mono ?_)
      have h2 : (0 : ℚ) < r2 := lt_of_lt_of_le h0 h12
      refine div_le_div_of_nonneg_right ?_ (by norm_num)
      refine List.sum_le_sum ?_
      intro c _
      have hmono : (60000 : ℚ) / (150 * r2) ≤ 60000 / (150 * r1) := by
        gcongr
      have hw : (0 : ℚ) ≤ (wordCount c.text : ℚ) := by positivity
      nlinarith
  · rintro ⟨c, hc, -⟩
    have h : chunks.length ≠ 0 := by
      intro hl
      rw [List.length_eq_zero.mp hl] at hc
      simp at hc
    simp only [Parser.estimateChunksDuration, if_neg h]
    exact le_max_left 1 _

theorem estimateChunksDuration_rate_mono_witness :
    (Parser.estimateChunksDuration [⟨"hello world", ChunkType.paragraph, 500⟩] 2 ≤
      Parser.estimateChunksDuration [⟨"hello world", ChunkType.paragraph, 500⟩] 1) ∧
    1 ≤ Parser.estimateChunksDuration [⟨"hello world", ChunkType.paragraph, 500⟩] 1 := by
  have h := estimateChunksDuration_rate_mono
    [⟨"hello world", ChunkType.paragraph, 500⟩] 1 2 one_pos one_le_two
  exact ⟨h.1, h.2 ⟨⟨"hello world", ChunkType.paragraph, 500⟩, by simp, by simp⟩⟩

/-! ## C1 — `seekToPosition` -/

/-- C1 counterexample: seeking to 15 seconds on a loaded player whose total
duration is 10 stores position 15 — `seekToPosition` does not clamp its
argument, so `0 ≤ currentPositionSec ≤ totalDurationSec` is not preserved
by every call. -/
theorem seekToPosition_clamp_cex :
    (TTS.seekToPosition sSeekCex 15).1.currentPosition = 15 ∧
    sSeekCex.totalDuration = 10 ∧
    ¬((TTS.seekToPosition sSeekCex 15).1.currentPosition ≤
        (TTS.seekToPosition sSeekCex 15).1.totalDuration) := by
  refine ⟨rfl, rfl, ?_⟩
  show ¬((15 : ℚ) ≤ sSeekCex.totalDuration)
  norm_num [sSeekCex, initTTS]

/-- C1 amended: after `seekToPosition(sec)` the stored position equals `sec`
EXACTLY (the code performs no clamping; its callers clamp), the chunk index
is `floor((sec/totalDuration) · chunkCount)` clamped into
`[0, chunkCount - 1]` (and `0` when the chunk sequence is empty or the total
duration is not positive), and the position invariant is therefore preserved
exactly for arguments already within `[0, totalDuration]`. -/
theorem seekToPosition_spec (s : TTSState) (sec : ℚ) :
    (TTS.seekToPosition s sec).1.currentPosition = sec ∧
    (TTS.seekToPosition s sec).1.totalDuration = s.totalDuration ∧
    (0 < s.chunks.length → 0 < s.totalDuration →
      ((TTS.seekToPosition s sec).1.currentChunkIndex : ℤ) =
        max 0 (min ⌊sec / s.totalDuration * (s.chunks.length : ℚ)⌋
          ((s.chunks.length : ℤ) - 1))) ∧
    (s.chunks.length = 0 ∨ s.totalDuration ≤ 0 →
      (TTS.seekToPosition s sec).1.currentChunkIndex = 0) ∧
    (0 ≤ sec → sec ≤ s.totalDuration →
      0 ≤ (TTS.seekToPosition s sec).1.currentPosition ∧
      (TTS.seekToPosition s sec).1.currentPosition ≤
        (TTS.seekToPosition s sec).1.totalDuration) := by
  refine ⟨rfl, rfl, ?_, ?_, fun h1 h2 => ⟨h1, h2⟩⟩
  · intro hlen hdur
    simp only [TTS.seekToPosition, TTS.clampChunkIndex, if_pos (And.intro hlen hdur)]
    exact Int.toNat_of_nonneg (le_max_left 0 _)
  · intro h
    have hcond : ¬(0 < s.chunks.length ∧ 0 < s.totalDuration) := by
      rintro ⟨hc1, hc2⟩
      rcases h with h | h
      · omega
      · exact absurd hc2 (not_lt.mpr h)
    simp [TTS.seekToPosition, hcond]

theorem seekToPosition_spec_witness :
    (TTS.seekToPosition sSeekCex 5).1.currentPosition = 5 ∧
    ((TTS.seekToPosition sSeekCex 5).1.currentChunkIndex : ℤ) =
      max 0 (min ⌊(5 : ℚ) / sSeekCex.totalDuration * (sSeekCex.chunks.length : ℚ)⌋
        ((sSeekCex.chunks.length : ℤ) - 1)) ∧
    0 ≤ (TTS.seekToPosition sSeekCex 5).1.currentPosition ∧
    (TTS.seekToPosition sSeekCex 5).1.currentPosition ≤
      (TTS.seekToPosition sSeekCex 5).1.totalDuration := by
  have h := seekToPosition_spec sSeekCex 5
  have hlen : 0 < sSeekCex.chunks.length := by decide
  have hdur : (0 : ℚ) < sSeekCex.totalDuration := by norm_num [sSeekCex, initTTS]
  have hle : (5 : ℚ) ≤ sSeekCex.totalDuration := by norm_num [sSeekCex, initTTS]
  exact ⟨h.1, h.2.2.1 hlen hdur,
    (h.2.2.2.2 (by norm_num) hle).1, (h.2.2.2.2 (by norm_num) hle).2⟩

/-! ## C9 — `setRate` while playing -/

/-- C9 counterexample: `setRate(2)` while playing at position 42 of a
single-chunk player recomputes the total duration to 1 second yet leaves
the position at 42 — the position is NOT clamped to the recomputed total,
contrary to the claim. -/
theorem setRate_clamp_cex :
    (TTS.setRate sRate42 2).1.totalDuration = 1 ∧
    (TTS.setRate sRate42 2).1.currentPosition = 42 ∧
    (TTS.setRate sRate42 2).1.currentPosition ≠
      min 42 (TTS.setRate sRate42 2).1.totalDuration := by
  have hw : wordCount "hello" = 1 := by decide
  have hest : Parser.estimateChunksDuration [⟨"hello", ChunkType.paragraph, 0⟩] 2 = 1 := by
    simp [Parser.estimateChunksDuration, hw, jsRound]
    norm_num
  have hdur : (TTS.setRate sRate42 2).1.totalDuration = 1 := by
    simp [TTS.setRate, sRate42, initTTS, TTS.stopInternal, TTS.speakChunk,
          TTS.startProgressTracking, hest]
  have hpos : (TTS.setRate sRate42 2).1.currentPosition = 42 := by
    simp [TTS.setRate, sRate42, initTTS, TTS.stopInternal, TTS.speakChunk,
          TTS.startProgressTracking]
  refine ⟨hdur, hpos, ?_⟩
  rw [hdur, hpos]
  norm_num

/-- C9 amended: `setRate(r)` while playing at a valid chunk index `i` and
position `p` restarts speech at the same chunk `i` with the new rate,
recomputes the total duration via the estimator at the new rate, and leaves
the position EXACTLY `p` — even when `p` exceeds the recomputed total (no
clamp is applied; only the later 1-second ticks pin the position). -/
theorem setRate_spec (s : TTSState) (r : ℚ) (hp : s.isPlaying = true)
    (hi : s.currentChunkIndex < s.chunks.length) :
    (TTS.setRate s r).1.rate = r ∧
    (TTS.setRate s r).1.totalDuration =
      ((Parser.estimateChunksDuration s.chunks r : ℤ) : ℚ) ∧
    (TTS.setRate s r).1.currentPosition = s.currentPosition ∧
    (TTS.setRate s r).1.currentChunkIndex = s.currentChunkIndex ∧
    (TTS.setRate s r).1.isPlaying = true ∧
    (TTS.setRate s r).1.inFlight = some s.currentChunkIndex ∧
    Act.submitUtterance s.currentChunkIndex ∈ (TTS.setRate s r).2 := by
  have hnot : ¬(s.chunks.length ≤ s.currentChunkIndex) := by omega
  simp [TTS.setRate, hp, TTS.stopInternal, TTS.speakChunk, TTS.startProgressTracking, hnot]

theorem setRate_spec_witness :
    (TTS.setRate sRate42 3).1.rate = 3 ∧
    (TTS.setRate sRate42 3).1.totalDuration =
      ((Parser.estimateChunksDuration sRate42.chunks 3 : ℤ) : ℚ) ∧
    (TTS.setRate sRate42 3).1.currentPosition = sRate42.currentPosition ∧
    (TTS.setRate sRate42 3).1.currentChunkIndex = sRate42.currentChunkIndex ∧
    (TTS.setRate sRate42 3).1.isPlaying = true ∧
    (TTS.setRate sRate42 3).1.inFlight = some sRate42.currentChunkIndex ∧
    Act.submitUtterance sRate42.currentChunkIndex ∈ (TTS.setRate sRate42 3).2 :=
  setRate_spec sRate42 3 rfl (by decide)

/-! ## C8 — synthesis-error robustness -/

/-- C8: a synthesis error whose code is neither `interrupted` nor `canceled`
for chunk `i` while playing and not paused is logged and schedules
`speakChunk(i + 1)` after the fixed 100 ms fallback delay, and firing that
timer submits chunk `i + 1` (playback proceeds without user intervention);
the codes `interrupted` and `canceled` cause no action at all. -/
theorem utteranceOnError_advances (s : TTSState) (i : ℕ) (code : String)
    (hp : s.isPlaying = true) (hq : s.isPaused = false)
    (h1 : code ≠ "interrupted") (h2 : code ≠ "canceled") :
    (TTS.utteranceOnError s i code).1.pauseTimeout = some (i + 1, 100) ∧
    Act.logError code ∈ (TTS.utteranceOnError s i code).2 ∧
    (i + 1 < s.chunks.length →
      Act.submitUtterance (i + 1) ∈
        (TTS.pauseTimeoutFire (TTS.utteranceOnError s i code).1).2) ∧
    TTS.utteranceOnError s i "interrupted" = (s, []) ∧
    TTS.utteranceOnError s i "canceled" = (s, []) := by
  refine ⟨?_, ?_, ?_, by simp [TTS.utteranceOnError], by simp [TTS.utteranceOnError]⟩
  · simp [TTS.utteranceOnError, h1, h2, hp, hq]
  · simp [TTS.utteranceOnError, h1, h2, hp, hq]
  · intro hlt
    have hnot : ¬(s.chunks.length ≤ i + 1) := by omega
    simp [TTS.utteranceOnError, h1, h2, hp, hq, TTS.pauseTimeoutFire,
          TTS.speakChunk, hnot]

theorem utteranceOnError_advances_witness :
    (TTS.utteranceOnError sErr5 1 "network").1.pauseTimeout = some (2, 100) ∧
    Act.logError "network" ∈ (TTS.utteranceOnError sErr5 1 "network").2 ∧
    Act.submitUtterance 2 ∈
      (TTS.pauseTimeoutFire (TTS.utteranceOnError sErr5 1 "network").1).2 ∧
    TTS.utteranceOnError sErr5 1 "interrupted" = (sErr5, []) ∧
    TTS.utteranceOnError sErr5 1 "canceled" = (sErr5, []) := by
  have h := utteranceOnError_advances sErr5 1 "network" rfl rfl
    (by decide) (by decide)
  exact ⟨h.1, h.2.1, h.2.2.1 (by decide), h.2.2.2.1, h.2.2.2.2⟩

/-! ## C6 — `cycleRate` -/

theorem setRate_rate (s : TTSState) (r : ℚ) : (TTS.setRate s r).1.rate = r := by
  simp only [TTS.setRate, TTS.stopInternal, TTS.speakChunk, TTS.handleEnd,
    TTS.startProgressTracking]
  split_ifs <;> rfl

theorem cycleRate_rate (s : TTSState) :
    (TTS.cycleRate s).1.rate = TTS.nextCycledRate s.rate :=
  setRate_rate s _

theorem cycleRateIter_rate (n : ℕ) (s : TTSState) :
    (cycleRateIter n s).rate = nextCycledRateIter n s.rate := by
  induction n generalizing s with
  | zero => rfl
  | succ n ih =>
    show (cycleRateIter n (TTS.cycleRate s).1).rate =
      nextCycledRateIter n (TTS.nextCycledRate s.rate)
    rw [ih, cycleRate_rate]

theorem nextCycledRateIter_succ (n : ℕ) (r : ℚ) :
    nextCycledRateIter (n + 1) r = nextCycledRateIter n (TTS.nextCycledRate r) := rfl

/-- The successor of each configured rate under `cycleRate`'s selection. -/
theorem nextCycledRate_cycle :
    TTS.nextCycledRate (3/4) = 1 ∧ TTS.nextCycledRate 1 = 5/4 ∧
    TTS.nextCycledRate (5/4) = 3/2 ∧ TTS.nextCycledRate (3/2) = 7/4 ∧
    TTS.nextCycledRate (7/4) = 2 ∧ TTS.nextCycledRate 2 = 3/4 := by
  refine ⟨?_, ?_, ?_, ?_, ?_, ?_⟩ <;>
    norm_num [TTS.nextCycledRate, TTS.ttsRates, List.findIdx?_cons, abs_sub_lt_iff,
      List.getD]

/-- A rate far outside `TTS_RATES` is treated as index 0, so the first cycle
goes to the second configured rate. -/
theorem nextCycledRate_of_three : TTS.nextCycledRate 3 = 1 := by
  norm_num [TTS.nextCycledRate, TTS.ttsRates, List.findIdx?_cons, abs_sub_lt_iff,
    List.getD]

/-- C6 counterexample: starting from rate 3.0 (not in `TTS_RATES`), six
`cycleRate` applications land on 0.75, not back on 3.0 — the claim fails
for starting rates outside the configured list. -/
theorem cycleRate_six_cex :
    sRate3.rate = 3 ∧ (cycleRateIter 6 sRate3).rate = 3/4 ∧
    (cycleRateIter 6 sRate3).rate ≠ sRate3.rate := by
  have hc := nextCycledRate_cycle
  have hiter : nextCycledRateIter 6 (3 : ℚ) = 3/4 := by
    show nextCycledRateIter 5 (TTS.nextCycledRate 3) = 3/4
    rw [nextCycledRate_of_three]
    show nextCycledRateIter 4 (TTS.nextCycledRate 1) = 3/4
    rw [hc.2.1]
    show nextCycledRateIter 3 (TTS.nextCycledRate (5/4)) = 3/4
    rw [hc.2.2.1]
    show nextCycledRateIter 2 (TTS.nextCycledRate (3/2)) = 3/4
    rw [hc.2.2.2.1]
    show nextCycledRateIter 1 (TTS.nextCycledRate (7/4)) = 3/4
    rw [hc.2.2.2.2.1]
    show nextCycledRateIter 0 (TTS.nextCycledRate 2) = 3/4
    rw [hc.2.2.2.2.2]
    rfl
  have h3 : sRate3.rate = 3 := rfl
  have h6 : (cycleRateIter 6 sRate3).rate = 3/4 := by
    rw [cycleRateIter_rate, h3, hiter]
  refine ⟨h3, h6, ?_⟩
  rw [h6, h3]
  norm_num

/-- C6 amended: for every starting rate that is an element of
`CONFIG.TTS_RATES`, six applications of `cycleRate` return the player's
rate to its original value, and each application advances circularly to the
next rate of the list. -/
theorem cycleRate_six_returns (s : TTSState) (h : s.rate ∈ TTS.ttsRates) :
    (cycleRateIter 6 s).rate = s.rate ∧
    (∀ i : Fin 6, s.rate = TTS.ttsRates.getD i 0 →
      (TTS.cycleRate s).1.rate = TTS.ttsRates.getD ((i.val + 1) % 6) 0) := by
  have hc := nextCycledRate_cycle
  constructor
  · rw [cycleRateIter_rate]
    simp only [TTS.ttsRates, List.mem_cons, List.not_mem_nil, or_false] at h
    rcases h with h | h | h | h | h | h <;> rw [h] <;>
      simp [nextCycledRateIter_succ, nextCycledRateIter, hc.1, hc.2.1, hc.2.2.1,
        hc.2.2.2.1, hc.2.2.2.2.1, hc.2.2.2.2.2]
  · intro i hi
    rw [cycleRate_rate]
    fin_cases i <;>
      simp only [TTS.ttsRates, List.getD] at hi ⊢ <;>
      simp only [hi] <;>
      simp [hc.1, hc.2.1, hc.2.2.1, hc.2.2.2.1, hc.2.2.2.2.1, hc.2.2.2.2.2]

theorem cycleRate_six_returns_witness :
    (cycleRateIter 6 initTTS).rate = initTTS.rate ∧
    (TTS.cycleRate initTTS).1.rate = TTS.ttsRates.getD ((1 + 1) % 6) 0 := by
  have h := cycleRate_six_returns initTTS (by norm_num [TTS.ttsRates, initTTS])
  exact ⟨h.1, h.2 ⟨1, by norm_num⟩ (by norm_num [TTS.ttsRates, initTTS, List.getD])⟩

/-! ## C7 — the chunker is pure and never emits empty text -/

theorem chunkOfMdLine_text_ne (pauses : Pauses) (line : List Char) (c : Chunk)
    (hc : c ∈ Parser.chunkOfMdLine pauses line) : c.text ≠ "" := by
  simp only [Parser.chunkOfMdLine] at hc
  split at hc
  · simp at hc
  · split at hc
    · simp at hc
    · split at hc
      · simp at hc
      · simp at hc
        subst hc
        simp_all

theorem string_mk_ne_empty (l : List Char) (h : l ≠ []) : (⟨l⟩ : String) ≠ "" := by
  intro he
  exact h (congrArg String.data he)

theorem chunkOfPlainPara_text_ne (pauses : Pauses) (para : List Char) (c : Chunk)
    (hc : c ∈ Parser.chunkOfPlainPara pauses para) : c.text ≠ "" := by
  simp only [Parser.chunkOfPlainPara] at hc
  split at hc
  · simp at hc
  · simp only [List.mem_flatten, List.mem_map] at hc
    obtain ⟨l, ⟨il, _, rfl⟩, hcl⟩ := hc
    split at hcl
    · simp at hcl
    · simp at hcl
      subst hcl
      exact string_mk_ne_empty _ (by assumption)

/-- C7: `parseIntoChunks` is a pure function of the raw text and the file
name's extension — re-chunking identical input yields an identical
sequence — and every chunk of the output has non-empty text: a line that
becomes blank after marker stripping is dropped, never emitted. -/
theorem parseIntoChunks_pure_nonempty (pauses : Pauses) (raw fn : String) :
    Parser.parseIntoChunks pauses raw fn = Parser.parseIntoChunks pauses raw fn ∧
    ∀ c ∈ Parser.parseIntoChunks pauses raw fn, c.text ≠ "" := by
  refine ⟨rfl, ?_⟩
  intro c hc
  simp only [Parser.parseIntoChunks] at hc
  split at hc <;>
  · simp only [List.mem_flatten, List.mem_map] at hc
    obtain ⟨l, ⟨line, _, rfl⟩, hcl⟩ := hc
    first
      | exact chunkOfMdLine_text_ne pauses line c hcl
      | exact chunkOfPlainPara_text_ne pauses line c hcl

theorem parseIntoChunks_pure_nonempty_witness :
    (⟨"Title", ChunkType.h1, 400⟩ : Chunk).text ≠ "" :=
  (parseIntoChunks_pure_nonempty ⟨500, 400, 380, 360, 340, 200, 100⟩
      "# Title\n\nHello world." "b.md").2
    ⟨"Title", ChunkType.h1, 400⟩ (by decide)

/-! ## C2 — cancellation before new speech -/

/-- C2 counterexample: on a playing player with a pending next-chunk timer
and an in-flight utterance, `seekToPosition` — listed by the claim among the
operations that "synchronously cancel the in-flight utterance and clear any
pending next-chunk timer before making further state changes" — performs
NEITHER: its trace contains no cancellation and no timer clear, and the
stale timer and utterance survive; moreover `pause`'s engine cancel is its
LAST action, after its flag writes, not before them. -/
theorem seek_no_cancel_cex :
    Act.cancelSynth ∉ (TTS.seekToPosition sStale 5).2 ∧
    Act.clearPauseTimeout ∉ (TTS.seekToPosition sStale 5).2 ∧
    (TTS.seekToPosition sStale 5).1.pauseTimeout = some (1, 100) ∧
    (TTS.seekToPosition sStale 5).1.inFlight = some 0 ∧
    (TTS.pause sStale).2.getLast? = some Act.cancelSynth ∧
    (TTS.pause sStale).2.take 3 =
      [Act.clearPauseTimeout, Act.saveSnapshot, Act.setFlags false true] := by
  refine ⟨?_, ?_, rfl, rfl, ?_, ?_⟩
  · simp [TTS.seekToPosition]
  · simp [TTS.seekToPosition]
  · simp [TTS.pause, sStale, initTTS, clearTimeoutActs]
  · simp [TTS.pause, sStale, initTTS, clearTimeoutActs]

theorem goodTrace_true (tr : List Act) : goodTrace true tr = true := by
  induction tr with
  | nil => rfl
  | cons a tr ih => cases a <;> simp [goodTrace, ih]

theorem speakChunk_fst_pauseTimeout (s : TTSState) (i : ℕ) :
    (TTS.speakChunk s i).1.pauseTimeout = s.pauseTimeout := by
  unfold TTS.speakChunk TTS.handleEnd
  split_ifs <;> rfl

theorem startProgressTracking_fst_pauseTimeout (s : TTSState) :
    (TTS.startProgressTracking s).1.pauseTimeout = s.pauseTimeout := rfl

theorem seekToPosition_fst_pauseTimeout (s : TTSState) (q : ℚ) :
    (TTS.seekToPosition s q).1.pauseTimeout = s.pauseTimeout := rfl

theorem stopInternal_fst_pauseTimeout (s : TTSState) :
    (TTS.stopInternal s).1.pauseTimeout = none := rfl

theorem pause_cancels (s : TTSState) (hp : s.isPlaying = true) :
    (TTS.pause s).1.pauseTimeout = none ∧ (TTS.pause s).1.inFlight = none ∧
    Act.cancelSynth ∈ (TTS.pause s).2 ∧ noSubmit (TTS.pause s).2 = true := by
  rcases hpt : s.pauseTimeout with _ | tp <;>
    simp [TTS.pause, hp, clearTimeoutActs, hpt, noSubmit]

theorem stop_cancels (s : TTSState) :
    (TTS.stop s).1.pauseTimeout = none ∧ (TTS.stop s).1.inFlight = none ∧
    Act.cancelSynth ∈ (TTS.stop s).2 ∧ noSubmit (TTS.stop s).2 = true := by
  rcases hpt : s.pauseTimeout with _ | tp <;>
    simp [TTS.stop, TTS.stopInternal, clearTimeoutActs, hpt, noSubmit]

theorem setRate_goodTrace (s : TTSState) (r : ℚ) :
    goodTrace false (TTS.setRate s r).2 = true := by
  rcases hpt : s.pauseTimeout with _ | tp <;> by_cases hp : s.isPlaying <;>
    simp only [TTS.setRate, TTS.stopInternal, TTS.startProgressTracking,
      clearTimeoutActs, hpt, hp] <;>
    simp [goodTrace, goodTrace_true]

theorem setRate_cancels (s : TTSState) (r : ℚ) (hp : s.isPlaying = true) :
    (TTS.setRate s r).1.pauseTimeout = none ∧ Act.cancelSynth ∈ (TTS.setRate s r).2 := by
  constructor
  · simp only [TTS.setRate, hp, if_true]
    simp [startProgressTracking_fst_pauseTimeout, speakChunk_fst_pauseTimeout,
      stopInternal_fst_pauseTimeout]
  · rcases hpt : s.pauseTimeout with _ | tp <;>
      simp only [TTS.setRate, TTS.stopInternal, TTS.startProgressTracking,
        clearTimeoutActs, hpt, hp] <;>
      simp

theorem setVoice_goodTrace (s : TTSState) (v : String) :
    goodTrace false (TTS.setVoice s v).2 = true := by
  rcases hpt : s.pauseTimeout with _ | tp <;>
    by_cases hv : s.availableVoices.contains v <;>
    by_cases hp : s.isPlaying <;>
    simp only [TTS.setVoice, TTS.stopInternal, TTS.startProgressTracking,
      clearTimeoutActs, hpt, hv, hp] <;>
    simp [goodTrace, goodTrace_true]

theorem setVoice_cancels (s : TTSState) (v : String) (hp : s.isPlaying = true)
    (hv : s.availableVoices.contains v = true) :
    (TTS.setVoice s v).1.pauseTimeout = none ∧ Act.cancelSynth ∈ (TTS.setVoice s v).2 := by
  constructor
  · simp only [TTS.setVoice, hv, hp, if_true]
    simp [startProgressTracking_fst_pauseTimeout, speakChunk_fst_pauseTimeout,
      stopInternal_fst_pauseTimeout]
  · rcases hpt : s.pauseTimeout with _ | tp <;>
      simp only [TTS.setVoice, TTS.stopInternal, TTS.startProgressTracking,
        clearTimeoutActs, hpt, hv, hp] <;>
      simp

theorem skipForward_goodTrace (s : TTSState) (a : ℚ) :
    goodTrace false (TTS.skipForward s a).2 = true := by
  rcases hpt : s.pauseTimeout with _ | tp <;> by_cases hp : s.isPlaying <;>
    simp only [TTS.skipForward, TTS.stopInternal, TTS.seekToPosition,
      TTS.startProgressTracking, clearTimeoutActs, hpt, hp] <;>
    simp [goodTrace, goodTrace_true]

theorem skipForward_cancels (s : TTSState) (a : ℚ) :
    (TTS.skipForward s a).1.pauseTimeout = none ∧
    Act.cancelSynth ∈ (TTS.skipForward s a).2 := by
  constructor
  · simp only [TTS.skipForward]
    split_ifs <;>
      simp [startProgressTracking_fst_pauseTimeout, speakChunk_fst_pauseTimeout,
        seekToPosition_fst_pauseTimeout, stopInternal_fst_pauseTimeout]
  · rcases hpt : s.pauseTimeout with _ | tp <;> by_cases hp : s.isPlaying <;>
      simp only [TTS.skipForward, TTS.stopInternal, TTS.seekToPosition,
        TTS.startProgressTracking, clearTimeoutActs, hpt, hp] <;>
      simp

theorem skipBackward_goodTrace (s : TTSState) (b : ℚ) :
    goodTrace false (TTS.skipBackward s b).2 = true := by
  rcases hpt : s.pauseTimeout with _ | tp <;> by_cases hp : s.isPlaying <;>
    simp only [TTS.skipBackward, TTS.stopInternal, TTS.seekToPosition,
      TTS.startProgressTracking, clearTimeoutActs, hpt, hp] <;>
    simp [goodTrace, goodTrace_true]

theorem skipBackward_cancels (s : TTSState) (b : ℚ) :
    (TTS.skipBackward s b).1.pauseTimeout = none ∧
    Act.cancelSynth ∈ (TTS.skipBackward s b).2 := by
  constructor
  · simp only [TTS.skipBackward]
    split_ifs <;>
      simp [startProgressTracking_fst_pauseTimeout, speakChunk_fst_pauseTimeout,
        seekToPosition_fst_pauseTimeout, stopInternal_fst_pauseTimeout]
  · rcases hpt : s.pauseTimeout with _ | tp <;> by_cases hp : s.isPlaying <;>
      simp only [TTS.skipBackward, TTS.stopInternal, TTS.seekToPosition,
        TTS.startProgressTracking, clearTimeoutActs, hpt, hp] <;>
      simp

/-- C2 amended: `pause`, `stop`, `setRate`, `setVoice`, `skipForward` and
`skipBackward` each synchronously cancel the in-flight utterance and clear
the pending next-chunk timer before any NEW utterance is submitted (for
`pause`/`stop` the cancel may follow the flag writes within the same
synchronous operation, and nothing is submitted at all), so no two
utterances overlap and no stale timer survives those operations;
`seekToPosition`/`seekToPercent` perform no cancellation themselves and
rely on their callers having cancelled. -/
theorem cancel_before_speak_amended (s : TTSState) (r : ℚ) (v : String) (a b : ℚ) :
    (s.isPlaying = true →
      (TTS.pause s).1.pauseTimeout = none ∧ (TTS.pause s).1.inFlight = none ∧
      Act.cancelSynth ∈ (TTS.pause s).2 ∧ noSubmit (TTS.pause s).2 = true) ∧
    ((TTS.stop s).1.pauseTimeout = none ∧ (TTS.stop s).1.inFlight = none ∧
      Act.cancelSynth ∈ (TTS.stop s).2 ∧ noSubmit (TTS.stop s).2 = true) ∧
    goodTrace false (TTS.setRate s r).2 = true ∧
    (s.isPlaying = true →
      (TTS.setRate s r).1.pauseTimeout = none ∧ Act.cancelSynth ∈ (TTS.setRate s r).2) ∧
    goodTrace false (TTS.setVoice s v).2 = true ∧
    (s.isPlaying = true → s.availableVoices.contains v = true →
      (TTS.setVoice s v).1.pauseTimeout = none ∧ Act.cancelSynth ∈ (TTS.setVoice s v).2) ∧
    goodTrace false (TTS.skipForward s a).2 = true ∧
    ((TTS.skipForward s a).1.pauseTimeout = none ∧
      Act.cancelSynth ∈ (TTS.skipForward s a).2) ∧
    goodTrace false (TTS.skipBackward s b).2 = true ∧
    ((TTS.skipBackward s b).1.pauseTimeout = none ∧
      Act.cancelSynth ∈ (TTS.skipBackward s b).2) ∧
    Act.cancelSynth ∉ (TTS.seekToPosition s a).2 ∧
    Act.cancelSynth ∉ (TTS.seekToPercent s b).2 :=
  ⟨fun hp => pause_cancels s hp, stop_cancels s, setRate_goodTrace s r,
   fun hp => setRate_cancels s r hp, setVoice_goodTrace s v,
   fun hp hv => setVoice_cancels s v hp hv, skipForward_goodTrace s a,
   skipForward_cancels s a, skipBackward_goodTrace s b, skipBackward_cancels s b,
   by simp [TTS.seekToPosition], by simp [TTS.seekToPercent, TTS.seekToPosition]⟩

theorem cancel_before_speak_amended_witness :
    ((TTS.pause sStale).1.pauseTimeout = none ∧ (TTS.pause sStale).1.inFlight = none ∧
      Act.cancelSynth ∈ (TTS.pause sStale).2 ∧ noSubmit (TTS.pause sStale).2 = true) ∧
    goodTrace false (TTS.setRate sStale 2).2 = true ∧
    ((TTS.setRate sStale 2).1.pauseTimeout = none ∧
      Act.cancelSynth ∈ (TTS.setRate sStale 2).2) ∧
    ((TTS.skipForward sStale 15).1.pauseTimeout = none ∧
      Act.cancelSynth ∈ (TTS.skipForward sStale 15).2) := by
  have h := cancel_before_speak_amended sStale 2 "Samantha" 15 15
  exact ⟨h.1 rfl, h.2.2.1, h.2.2.2.1 rfl, h.2.2.2.2.2.2.2.1⟩

/-! ## C3 — the `isPlaying`/`isPaused` invariant -/

theorem flagsInv_handleEnd (s : TTSState) : flagsInv (TTS.handleEnd s).1 := by
  simp [flagsInv, TTS.handleEnd]

theorem flagsInv_startTracking (s : TTSState) (h : flagsInv s) :
    flagsInv (TTS.startProgressTracking s).1 := h

theorem flagsInv_speakChunk (s : TTSState) (i : ℕ) (h : flagsInv s) :
    flagsInv (TTS.speakChunk s i).1 := by
  unfold TTS.speakChunk
  split_ifs with h1 h2
  · exact flagsInv_handleEnd s
  · exact h
  · exact h

theorem flagsInv_stopInternal (s : TTSState) : flagsInv (TTS.stopInternal s).1 := by
  simp [flagsInv, TTS.stopInternal]

theorem flagsInv_stop (s : TTSState) : flagsInv (TTS.stop s).1 :=
  flagsInv_stopInternal s

theorem flagsInv_resume (s : TTSState) (h : flagsInv s) : flagsInv (TTS.resume s).1 := by
  simp only [TTS.resume]
  split_ifs with h1
  · exact flagsInv_startTracking _ (flagsInv_speakChunk _ _ (by simp [flagsInv]))
  · exact h

theorem flagsInv_play (s : TTSState) (h : flagsInv s) : flagsInv (TTS.play s).1 := by
  simp only [TTS.play]
  split_ifs with h1 h2
  · exact flagsInv_resume s h
  · exact h
  · exact flagsInv_startTracking _ (flagsInv_speakChunk _ _ (by simp [flagsInv]))

theorem flagsInv_pause (s : TTSState) (h : flagsInv s) : flagsInv (TTS.pause s).1 := by
  simp only [TTS.pause]
  split_ifs with h1
  · simp [flagsInv]
  · exact h

theorem flagsInv_seekToPosition (s : TTSState) (q : ℚ) (h : flagsInv s) :
    flagsInv (TTS.seekToPosition s q).1 := h

theorem stopInternal_fst_isPaused (s : TTSState) :
    (TTS.stopInternal s).1.isPaused = false := rfl

theorem seekToPosition_fst_isPaused (s : TTSState) (q : ℚ) :
    (TTS.seekToPosition s q).1.isPaused = s.isPaused := rfl

theorem flagsInv_skipForward (s : TTSState) (q : ℚ) (h : flagsInv s) :
    flagsInv (TTS.skipForward s q).1 := by
  simp only [TTS.skipForward]
  split_ifs with h1
  · exact flagsInv_startTracking _ (flagsInv_speakChunk _ _
      (by simp [flagsInv, seekToPosition_fst_isPaused, stopInternal_fst_isPaused]))
  · exact flagsInv_seekToPosition _ _ (flagsInv_stopInternal s)

theorem flagsInv_skipBackward (s : TTSState) (q : ℚ) (h : flagsInv s) :
    flagsInv (TTS.skipBackward s q).1 := by
  simp only [TTS.skipBackward]
  split_ifs with h1
  · exact flagsInv_startTracking _ (flagsInv_speakChunk _ _
      (by simp [flagsInv, seekToPosition_fst_isPaused, stopInternal_fst_isPaused]))
  · exact flagsInv_seekToPosition _ _ (flagsInv_stopInternal s)

theorem flagsInv_setRate (s : TTSState) (r : ℚ) (h : flagsInv s) :
    flagsInv (TTS.setRate s r).1 := by
  simp only [TTS.setRate]
  split_ifs with h1
  · exact flagsInv_startTracking _ (flagsInv_speakChunk _ _
      (by simp [flagsInv, stopInternal_fst_isPaused]))
  · exact h

theorem flagsInv_setVoice (s : TTSState) (v : String) (h : flagsInv s) :
    flagsInv (TTS.setVoice s v).1 := by
  simp only [TTS.setVoice]
  split_ifs with h1 h2
  · exact flagsInv_startTracking _ (flagsInv_speakChunk _ _
      (by simp [flagsInv, stopInternal_fst_isPaused]))
  · exact h
  · exact h

theorem flagsInv_init (s : TTSState) (raw fn : String) (pauses : Pauses) (rate : ℚ) :
    flagsInv (TTS.init s raw fn pauses rate).1 := by
  simp [flagsInv, TTS.init, TTS.stop, TTS.stopInternal]

theorem stepOp_flagsInv (s : TTSState) (o : Op) (h : flagsInv s) :
    flagsInv (stepOp s o) := by
  cases o with
  | opInit raw fn pauses rate => exact flagsInv_init s raw fn pauses rate
  | opPlay => exact flagsInv_play s h
  | opPause => exact flagsInv_pause s h
  | opResume => exact flagsInv_resume s h
  | opStop => exact flagsInv_stop s
  | opSkipForward q => exact flagsInv_skipForward s q h
  | opSkipBackward q => exact flagsInv_skipBackward s q h
  | opSeekToPosition q => exact flagsInv_seekToPosition s q h
  | opSeekToPercent q => exact flagsInv_seekToPosition s _ h
  | opSetRate q => exact flagsInv_setRate s q h
  | opSetVoice v => exact flagsInv_setVoice s v h
  | opCycleRate => exact flagsInv_setRate s _ h
  | opUtteranceEnd =>
    show flagsInv (match s.inFlight with
      | some i => (TTS.utteranceOnEnd s i (s.chunks.getD i default).pauseAfter).1
      | none => s)
    rcases hif : s.inFlight with _ | i
    · exact h
    · simp only [TTS.utteranceOnEnd]
      split_ifs <;> exact h
  | opUtteranceError code =>
    show flagsInv (match s.inFlight with
      | some i => (TTS.utteranceOnError s i code).1
      | none => s)
    rcases hif : s.inFlight with _ | i
    · exact h
    · simp only [TTS.utteranceOnError]
      split_ifs <;> exact h
  | opTimerFire =>
    show flagsInv (TTS.pauseTimeoutFire s).1
    unfold TTS.pauseTimeoutFire
    rcases hpt : s.pauseTimeout with _ | ⟨j, d⟩
    · exact h
    · exact flagsInv_speakChunk _ _ h
  | opTick =>
    show flagsInv (TTS.progressTick s).1
    simp only [TTS.progressTick]
    split_ifs <;> exact h

/-- C3: in every state reachable from the fresh player by any sequence of
public operations and chunk-completion/error/timer/tick events,
`isPlaying` and `isPaused` are never both true; and `stop` and the
end-of-sequence handler `handleEnd` leave both flags false in every
state. -/
theorem flags_invariant (ops : List Op) :
    flagsInv (runOps initTTS ops) ∧
    (∀ s : TTSState,
      (TTS.stop s).1.isPlaying = false ∧ (TTS.stop s).1.isPaused = false ∧
      (TTS.handleEnd s).1.isPlaying = false ∧ (TTS.handleEnd s).1.isPaused = false) := by
  constructor
  · have hgen : ∀ (l : List Op) (s : TTSState), flagsInv s → flagsInv (runOps s l) := by
      intro l
      induction l with
      | nil => exact fun s h => h
      | cons o t ih => exact fun s h => ih (stepOp s o) (stepOp_flagsInv s o h)
    exact hgen ops initTTS (by simp [flagsInv, initTTS])
  · exact fun s => ⟨rfl, rfl, rfl, rfl⟩

end Sparks
